import Mathlib

/-!
Verification development for the gorm-cache repository.

The definitions below are a shallow embedding of the cache coordination
engine: the key-space encoder (util/key.go), the configuration
(config/config.go), the storage layer (the in-process Memory backend,
which is the default storage, plus the Init routines of all backends),
the query-path handlers (cache/query.go: BeforeQuery / AfterQuery), the
write-path invalidation hooks (AfterCreate / AfterUpdate / AfterDelete),
the WHERE-clause key extraction helpers, and the singleflight registry.

Modelling conventions:
  - Go strings stay strings; Go int64 becomes Int; Go slices become lists.
  - The storage backend used by the query-path model is the default
    in-process Memory store (storage.NewMem), modelled as an association
    list without expiration (entries are the currently live keys).
  - json.Marshal / json.Unmarshal of domain objects are opaque to the
    cache layer; serialized objects are carried as strings, and the
    success of unmarshalling a payload into the destination is an
    explicit oracle (a Bool-valued function on payload strings).
  - gorm runs the actual upstream query callback only when db.Error is
    nil; "the upstream query executes" is therefore modelled as the
    error slot being nil after the before-query callback.
  - Goroutine pairs in the hooks write to disjoint key namespaces; the
    model applies them in program-text order.
-/

namespace GormCache

/-- util.GormCachePrefix. -/
def GormCachePrefix : String := "gormcache"

/-- Go strings.Join: concatenate the elements with the separator between
consecutive elements. -/
def stringsJoin : List String → String → String
  | [], _ => ""
  | [s], _ => s
  | s :: rest, sep => s ++ sep ++ stringsJoin rest sep

/-- util.GenPrimaryCacheKey: with a single value the value is used as-is
(it may already be a joined composite key); with several values they are
joined with a colon. -/
def GenPrimaryCacheKey (instanceId tableName : String) (primaryKeyValues : List String) : String :=
  let key :=
    match primaryKeyValues with
    | [v] => v
    | vs => stringsJoin vs ":"
  GormCachePrefix ++ ":" ++ instanceId ++ ":p:" ++ tableName ++ ":" ++ key

/-- util.GenPrimaryCachePrefix. -/
def GenPrimaryCachePrefix (instanceId tableName : String) : String :=
  GormCachePrefix ++ ":" ++ instanceId ++ ":p:" ++ tableName

/-- util.GenUniqueCacheKey: same single-versus-many joining rule as the
primary key generator, additionally scoped by the unique index name. -/
def GenUniqueCacheKey (instanceId tableName uniqueIndexName : String)
    (uniqueKeyValues : List String) : String :=
  let key :=
    match uniqueKeyValues with
    | [v] => v
    | vs => stringsJoin vs ":"
  GormCachePrefix ++ ":" ++ instanceId ++ ":u:" ++ tableName ++ ":" ++ uniqueIndexName ++ ":" ++ key

/-- util.GenUniqueCachePrefix. -/
def GenUniqueCachePrefix (instanceId tableName uniqueIndexName : String) : String :=
  GormCachePrefix ++ ":" ++ instanceId ++ ":u:" ++ tableName ++ ":" ++ uniqueIndexName

/-- util.GenSearchCacheKey. The bound parameter values arrive already
stringified (the source dereferences pointers and formats each with %v);
each is appended behind a colon. -/
def GenSearchCacheKey (instanceId tableName sql : String) (vars : List String) : String :=
  GormCachePrefix ++ ":" ++ instanceId ++ ":s:" ++ tableName ++ ":" ++ sql ++
    String.join (vars.map (fun v => ":" ++ v))

/-- util.GenSearchCachePrefix. -/
def GenSearchCachePrefix (instanceId tableName : String) : String :=
  GormCachePrefix ++ ":" ++ instanceId ++ ":s:" ++ tableName

/-- util.GenSingleFlightKey: table name plus SQL plus stringified vars. -/
def GenSingleFlightKey (tableName sql : String) (vars : List String) : String :=
  tableName ++ ":" ++ sql ++ String.join (vars.map (fun v => ":" ++ v))

/-- config.CacheLevel (CacheLevelOff / OnlyPrimary / OnlySearch / All). -/
inductive CacheLevel
  | off
  | onlyPrimary
  | onlySearch
  | all
deriving DecidableEq, Repr

/-- The `CacheLevel == CacheLevelAll || CacheLevel == CacheLevelOnlyPrimary`
test that guards every primary-cache code path. -/
def levelIncludesPrimary (l : CacheLevel) : Bool :=
  l == CacheLevel.all || l == CacheLevel.onlyPrimary

/-- The `CacheLevel == CacheLevelAll || CacheLevel == CacheLevelOnlySearch`
test that guards every search-cache code path. -/
def levelIncludesSearch (l : CacheLevel) : Bool :=
  l == CacheLevel.all || l == CacheLevel.onlySearch

/-- config.CacheConfig (the fields the cache coordination engine reads). -/
structure CacheConfig where
  cacheLevel : CacheLevel
  tables : List String
  invalidateWhenUpdate : Bool
  asyncWrite : Bool
  cacheTTL : Int
  cacheMaxItemCnt : Int
  disableCachePenetrationProtect : Bool
deriving DecidableEq, Repr

/-- Modelled from the spec: the body of util.ShouldCache is not among the
source files (only its tests and call sites are). The spec fixes it:
"table allow-list (empty = all tables)" and "For all tables not in the
allow-list, no cache entry is ever created or consulted"; the repository's
own tests (util/misc_test.go) pin the same behaviour: an empty or nil
list caches every table, otherwise exact, case-sensitive membership. -/
def ShouldCache (tableName : String) (tables : List String) : Bool :=
  tables.isEmpty || tables.contains tableName

/-- The key/value state of the in-process Memory backend (the default
storage, storage.NewMem): the association list of live entries. -/
abbrev Store := List (String × String)

/-- Map lookup on an association list (shared by the storage model and the
singleflight registry model). -/
def assocFind {β : Type} : List (String × β) → String → Option β
  | [], _ => none
  | (k, v) :: rest, key => if k == key then some v else assocFind rest key

/-- ccache Get as the Memory backend uses it. -/
def storeLookup (st : Store) (key : String) : Option String :=
  assocFind st key

/-- Memory.SetKey / ccache Set: (re)bind the key. -/
def storeSetKey (st : Store) (key value : String) : Store :=
  (key, value) :: st.filter (fun kv => !(kv.1 == key))

/-- Memory.DeleteKey. -/
def storeDeleteKey (st : Store) (key : String) : Store :=
  st.filter (fun kv => !(kv.1 == key))

/-- Memory.BatchDeleteKeys: delete each key. -/
def storeBatchDeleteKeys (st : Store) (keys : List String) : Store :=
  st.filter (fun kv => !(keys.contains kv.1))

/-- Go strings.HasPrefix, the prefix test of the storage sweeps
(character-list form, so that concrete instances evaluate). -/
def goHasPrefix (s p : String) : Bool :=
  p.data.isPrefixOf s.data

/-- Memory.DeleteKeysWithPrefix / ccache DeletePrefix: remove every entry
whose key starts with the prefix. -/
def storeDeleteKeysWithPrefix (st : Store) (keyPrefix : String) : Store :=
  st.filter (fun kv => !(goHasPrefix kv.1 keyPrefix))

/-- Memory.BatchSetKeys: sequential SetKey. -/
def storeBatchSetKeys (st : Store) (kvs : List (String × String)) : Store :=
  kvs.foldl (fun acc kv => storeSetKey acc kv.1 kv.2) st

/-- Memory.BatchGetValues: collect the values of the keys that are
present; if any key is missing the whole batch fails (the source returns
the "cannot get items" error when the collected count differs from the
requested count). -/
def storeBatchGetValues (st : Store) (keys : List String) : Option (List String) :=
  let values := keys.filterMap (storeLookup st)
  if values.length == keys.length then some values else none

/-- The schema information the handlers read through gorm's schema
reflection: the DBNames of the primary-key columns in declared key order
(schema.PrimaryFields), and the parsed UNIQUE indexes as index name with
the DBNames of its columns. -/
structure SchemaInfo where
  primaryFields : List String
  uniqueIndexes : List (String × List String)
deriving DecidableEq, Repr

/-- One expression of the WHERE clause (clause.Where.Exprs).
`eq` is clause.Eq and `inList` is clause.IN, with values stringified the
way the source does (fmt %v). `raw` is a clause.Expr whose raw-SQL
classification has been carried out: `ttype` is the result of
getExprType (so one of "eq", "in" or "other"), `column` the result of
getColNameFromExpr and `values` the result of getPrimaryKeysFromExpr;
these three are deterministic string computations on the raw SQL and
bound vars, abstracted here to their outputs. `otherExpr` is any other
expression type. -/
inductive WhereExpr
  | eq (column : String) (value : String)
  | inList (column : String) (values : List String)
  | raw (ttype : String) (column : String) (values : List String)
  | otherExpr
deriving DecidableEq, Repr

/-- Append values for a field of the Go map[string][]string that the
extraction functions build (fieldValuesMap[field] = append(...)). -/
def mapAppend : List (String × List String) → String → List String → List (String × List String)
  | [], key, vs => [(key, vs)]
  | (k, old) :: rest, key, vs =>
      if k == key then (k, old ++ vs) :: rest else (k, old) :: mapAppend rest key vs

/-- Read a field of the field-values map (a missing field reads as the
empty list, like a Go map access). -/
def mapGet : List (String × List String) → String → List String
  | [], _ => []
  | (k, vs) :: rest, key => if k == key then vs else mapGet rest key

/-- One step of the field-values collection loop shared by
getPrimaryKeysFromWhereClause and getUniqueKeysFromWhereClause: Eq adds
its single stringified value, IN adds all of its values, a classified
raw expression adds its extracted values when its type is "in" or "eq",
anything else contributes nothing. -/
def collectStep (m : List (String × List String)) (e : WhereExpr) : List (String × List String) :=
  match e with
  | WhereExpr.eq col v => mapAppend m col [v]
  | WhereExpr.inList col vs => mapAppend m col vs
  | WhereExpr.raw ttype col vs =>
      if ttype == "in" || ttype == "eq" then mapAppend m col vs else m
  | WhereExpr.otherExpr => m

/-- The field-values collection loop over the WHERE expressions. -/
def collectFieldValues (exprs : List WhereExpr) : List (String × List String) :=
  exprs.foldl collectStep []

/-- Helper of uniqueStringSlice carrying the seen set. -/
def uniqueStringSliceAux : List String → List String → List String
  | _, [] => []
  | seen, s :: rest =>
      if seen.contains s then uniqueStringSliceAux seen rest
      else s :: uniqueStringSliceAux (s :: seen) rest

/-- uniqueStringSlice: de-duplicate preserving first occurrences. -/
def uniqueStringSlice (slice : List String) : List String :=
  uniqueStringSliceAux [] slice

/-- The composite-key loop body: for row index i take the i-th value of
each key field, falling back to the field's last value when its list is
shorter (the source: `if i < len(values) { values[i] } else
{ values[len(values)-1] }`). -/
def compositeKeyAt (m : List (String × List String)) (fields : List String) (i : Nat) : String :=
  stringsJoin
    (fields.map (fun f =>
      let values := mapGet m f
      if i < values.length then values.getD i "" else values.getD (values.length - 1) ""))
    ":"

/-- The length bound of the composite loop: the minimum of the value-list
lengths over the key fields (the source initialises with the first field
and lowers; the variable is named maxLen but computes the minimum). -/
def compositeLen (m : List (String × List String)) (first : String) (rest : List String) : Nat :=
  rest.foldl (fun acc f => if (mapGet m f).length < acc then (mapGet m f).length else acc)
    (mapGet m first).length

/-- getPrimaryKeysFromWhereClause: extract the primary-key tuples of the
WHERE clause. Nil WHERE clause, nil schema or no primary-key fields give
the empty result; a primary-key field without any collected value gives
the empty result (every key column must be constrained); a single-column
key returns its de-duplicated values; a composite key joins the values
column-wise with ":". -/
def getPrimaryKeysFromWhereClause (schema : Option SchemaInfo)
    (whereExprs : Option (List WhereExpr)) : List String :=
  match whereExprs with
  | none => []
  | some exprs =>
    match schema with
    | none => []
    | some s =>
      let pkFields := s.primaryFields
      if pkFields.isEmpty then []
      else
        let m := collectFieldValues exprs
        if pkFields.any (fun f => (mapGet m f).isEmpty) then []
        else
          match pkFields with
          | [] => []
          | [f] => uniqueStringSlice (mapGet m f)
          | f0 :: f1 :: rest =>
            let len := compositeLen m f0 (f1 :: rest)
            uniqueStringSlice ((List.range len).map (compositeKeyAt m (f0 :: f1 :: rest)))

/-- hasOtherClauseExceptPrimaryField: true when the WHERE clause holds
anything besides equality/IN constraints on primary-key columns. Nil
WHERE clause gives false; nil schema or no primary key gives true (skip
the cache); otherwise any expression that is not an eq/IN (or raw eq/in)
on a primary-key column gives true. -/
def hasOtherClauseExceptPrimaryField (schema : Option SchemaInfo)
    (whereExprs : Option (List WhereExpr)) : Bool :=
  match whereExprs with
  | none => false
  | some exprs =>
    match schema with
    | none => true
    | some s =>
      if s.primaryFields.isEmpty then true
      else
        exprs.any (fun e =>
          match e with
          | WhereExpr.eq col _ => !(s.primaryFields.contains col)
          | WhereExpr.inList col _ => !(s.primaryFields.contains col)
          | WhereExpr.raw ttype col _ =>
              if ttype == "in" || ttype == "eq" then !(s.primaryFields.contains col) else true
          | WhereExpr.otherExpr => true)

/-- getUniqueKeysFromWhereClause restricted to one index: none when the
index has no columns or some column has no collected value, otherwise the
key list (single column: de-duplicated values; composite: column-wise
joins, kept only when non-empty like the source's final length check). -/
def uniqueKeysForIndex (m : List (String × List String)) : List String → Option (List String)
  | [] => none
  | [f] => some (uniqueStringSlice (mapGet m f))
  | f0 :: f1 :: rest =>
      let len := compositeLen m f0 (f1 :: rest)
      let keys := uniqueStringSlice ((List.range len).map (compositeKeyAt m (f0 :: f1 :: rest)))
      if keys.length > 0 then some keys else none

/-- getUniqueKeysFromWhereClause: per unique index, the extracted key
tuples; an index some of whose columns are unconstrained is skipped. (The
source's nil-Field guards cannot arise here: the model's index fields are
plain column names.) -/
def getUniqueKeysFromWhereClause (schema : Option SchemaInfo)
    (whereExprs : Option (List WhereExpr)) : List (String × List String) :=
  match whereExprs, schema with
  | none, _ => []
  | some _, none => []
  | some exprs, some s =>
    let m := collectFieldValues exprs
    s.uniqueIndexes.filterMap (fun idx =>
      if idx.2.any (fun f => (mapGet m f).isEmpty) then none
      else (uniqueKeysForIndex m idx.2).map (fun ks => (idx.1, ks)))

/-- The state of the Redis backend that Init touches. -/
structure RedisStore where
  ttl : Int
  scriptsLoaded : Bool
  onceDone : Bool
deriving DecidableEq, Repr

/-- Redis.Init: guarded by sync.Once — the first call stores the TTL and
logger and loads the server-side scripts; later calls do nothing and
return nil (script loading is modelled as succeeding). -/
def redisInit (r : RedisStore) (confTTL : Int) : RedisStore :=
  if r.onceDone then r
  else { ttl := confTTL, scriptsLoaded := true, onceDone := true }

/-- The state of the Gcache backend that Init touches. -/
structure GcacheStore where
  expirationTTL : Option Int
  built : Bool
  onceDone : Bool
deriving DecidableEq, Repr

/-- Gcache.Init: guarded by sync.Once — the first call applies the TTL as
the builder expiration when non-zero and builds the cache; later calls do
nothing. Always returns nil. -/
def gcacheInit (g : GcacheStore) (confTTL : Int) : GcacheStore :=
  if g.onceDone then g
  else
    { expirationTTL := if confTTL != 0 then some confTTL else g.expirationTTL
      built := true
      onceDone := true }

/-- The state of the Memory backend that Init touches. -/
structure MemoryStore where
  ttl : Int
  entries : Store
deriving DecidableEq, Repr

/-- Memory.Init: builds a fresh ccache and stores the configured TTL on
every call — no once guard. Always returns nil. -/
def memoryInit (_m : MemoryStore) (confTTL : Int) : MemoryStore :=
  { ttl := confTTL, entries := [] }

/-- The error slot of the gorm DB handle, restricted to the values the
cache layer reads or writes on the query path: nil, gorm.ErrRecordNotFound,
the three distinguished cache-hit markers of util/definition.go, and
util.ErrCacheUnmarshal. (The multierror wrapping used for singleflight
followers belongs to the follower path, which is modelled separately by
the singleflight registry below.) -/
inductive GErr
  | nilErr
  | recordNotFound
  | primaryCacheHit
  | searchCacheHit
  | recordNotFoundCacheHit
  | cacheUnmarshal
deriving DecidableEq, Repr

/-- The reflect.Kind of the indirected query destination, as the handler
distinguishes it: a single struct, an array/slice, or anything else. -/
inductive DestKind
  | structKind
  | sliceOrArray
  | otherKind
deriving DecidableEq, Repr

/-- The per-query data the handlers read from the gorm statement:
table name, built SQL, stringified bound vars, schema, WHERE expressions,
the destination's kind, and the oracle telling whether json.Unmarshal of
a payload string into the destination succeeds. -/
structure QueryCtx where
  tableName : String
  sql : String
  vars : List String
  schema : Option SchemaInfo
  whereExprs : Option (List WhereExpr)
  destKind : DestKind
  decodeOk : String → Bool

/-- Outcome of the tryPrimaryCache closure: whether it hit, the value of
db.Error afterwards (threading the incoming value through the paths that
leave it untouched), and the cache keys it fetched. -/
structure PrimaryProbeOut where
  hitted : Bool
  error : GErr
  readKeys : List String
deriving DecidableEq, Repr

/-- tryPrimaryCache (BeforeQuery): give up without touching anything when
no full primary-key tuple set is extractable or the WHERE clause has any
other constraint; otherwise batch-fetch the primary cache keys. A fetch
error or a count mismatch clears db.Error and misses; a retrieved batch
whose shape does not fit the destination (struct destination with more
than one value, or a destination that is neither struct nor slice/array)
or whose payload fails unmarshalling sets util.ErrCacheUnmarshal; else
the probe hits with the PrimaryCacheHit marker. -/
def tryPrimaryCache (st : Store) (instanceId : String) (q : QueryCtx) (errIn : GErr) :
    PrimaryProbeOut :=
  let primaryKeys := getPrimaryKeysFromWhereClause q.schema q.whereExprs
  if primaryKeys.isEmpty then ⟨false, errIn, []⟩
  else if hasOtherClauseExceptPrimaryField q.schema q.whereExprs then ⟨false, errIn, []⟩
  else
    let cacheKeys := primaryKeys.map (fun pk => GenPrimaryCacheKey instanceId q.tableName [pk])
    match storeBatchGetValues st cacheKeys with
    | none => ⟨false, GErr.nilErr, cacheKeys⟩
    | some cacheValues =>
      if cacheValues.length != primaryKeys.length then ⟨false, GErr.nilErr, cacheKeys⟩
      else
        let finalValue :=
          if q.destKind == DestKind.structKind && cacheValues.length == 1 then
            cacheValues.getD 0 ""
          else if q.destKind == DestKind.sliceOrArray && decide (1 ≤ cacheValues.length) then
            "[" ++ stringsJoin cacheValues "," ++ "]"
          else ""
        if finalValue.length == 0 then ⟨false, GErr.cacheUnmarshal, cacheKeys⟩
        else if !(q.decodeOk finalValue) then ⟨false, GErr.cacheUnmarshal, cacheKeys⟩
        else ⟨true, GErr.primaryCacheHit, cacheKeys⟩

/-- Outcome of the trySearchCache closure. `rowsAffected` is the value the
probe wrote into db.RowsAffected (none when untouched) — the source
assigns it before attempting to unmarshal the payload, so it is set even
when the payload part then fails. `panicked` records the slice-bounds
panic the source runs into when a stored payload is neither the
"recordNotFound" sentinel nor contains a "|" separator
(strings.Index returns -1 and cacheValue[:-1] panics). -/
structure SearchProbeOut where
  hitted : Bool
  error : GErr
  rowsAffected : Option Int
  readKeys : List String
  panicked : Bool
deriving DecidableEq, Repr

/-- trySearchCache (BeforeQuery): look the search key up; a missing key or
fetch error clears db.Error and misses; the "recordNotFound" sentinel hits
with the RecordNotFoundCacheHit marker; otherwise the payload splits at
the first "|" into the rows-affected count and the serialized rows — an
unparsable count or a payload that fails unmarshalling clears db.Error
and misses, else the probe hits with the SearchCacheHit marker. -/
def trySearchCache (st : Store) (instanceId : String) (q : QueryCtx) : SearchProbeOut :=
  let key := GenSearchCacheKey instanceId q.tableName q.sql q.vars
  match storeLookup st key with
  | none => ⟨false, GErr.nilErr, none, [key], false⟩
  | some cacheValue =>
    if cacheValue == "recordNotFound" then
      ⟨true, GErr.recordNotFoundCacheHit, none, [key], false⟩
    else
      match cacheValue.data.findIdx? (fun c => c == '|') with
      | none => ⟨false, GErr.nilErr, none, [key], true⟩
      | some pos =>
        let rowsStr := String.mk (cacheValue.data.take pos)
        let rest := String.mk (cacheValue.data.drop (pos + 1))
        match rowsStr.toInt? with
        | none => ⟨false, GErr.nilErr, none, [key], false⟩
        | some n =>
          if q.decodeOk rest then ⟨true, GErr.searchCacheHit, some n, [key], false⟩
          else ⟨false, GErr.nilErr, some n, [key], false⟩

/-- Everything the BeforeQuery callback did to the DB handle and to the
cache layer: db.Error and db.RowsAffected afterwards (rowsAffected none
when untouched), whether a hit was counted, whether the hit/miss
statistics were touched at all, whether a singleflight call record was
registered, the cache keys read, and whether the callback panicked. -/
structure BeforeQueryResult where
  error : GErr
  rowsAffected : Option Int
  hit : Bool
  statsTouched : Bool
  singleflightRegistered : Bool
  readKeys : List String
  panicked : Bool
deriving DecidableEq, Repr

/-- BeforeQuery (leader path: the singleflight registry holds no record
for the call key, so the callback registers a fresh record and proceeds;
the follower path is modelled with the registry operations below). When
the table is outside the allow-list nothing at all happens. Otherwise the
hit/miss statistics fire, a call record is registered, and the primary
probe (when the level includes primary lookups) and then the search probe
(when the level includes search lookups and the primary probe did not
hit) run. -/
def beforeQuery (cfg : CacheConfig) (instanceId : String) (q : QueryCtx) (st : Store) :
    BeforeQueryResult :=
  if ShouldCache q.tableName cfg.tables then
    let p :=
      if levelIncludesPrimary cfg.cacheLevel then tryPrimaryCache st instanceId q GErr.nilErr
      else ⟨false, GErr.nilErr, []⟩
    if p.hitted then
      { error := p.error, rowsAffected := none, hit := true, statsTouched := true
        singleflightRegistered := true, readKeys := p.readKeys, panicked := false }
    else if levelIncludesSearch cfg.cacheLevel then
      let s := trySearchCache st instanceId q
      { error := if s.panicked then p.error else s.error
        rowsAffected := s.rowsAffected
        hit := s.hitted
        statsTouched := true
        singleflightRegistered := true
        readKeys := p.readKeys ++ s.readKeys
        panicked := s.panicked }
    else
      { error := p.error, rowsAffected := none, hit := false, statsTouched := true
        singleflightRegistered := true, readKeys := p.readKeys, panicked := false }
  else
    { error := GErr.nilErr, rowsAffected := none, hit := false, statsTouched := false
      singleflightRegistered := false, readKeys := [], panicked := false }

/-- gorm's query callback (callbacks.Query) executes the upstream SQL only
when db.Error is nil after the before-query callbacks. -/
def upstreamWillRun (r : BeforeQueryResult) : Bool :=
  r.error == GErr.nilErr

/-- A write the AfterQuery callback performed against the storage. -/
inductive CacheWrite
  | setKey (key value : String)
  | batchSetKeys (kvs : List (String × String))
deriving DecidableEq, Repr

/-- AfterQuery result: the storage afterwards, db.Error after the final
hit-marker unwinding, and the trace of storage writes. -/
structure AfterQueryResult where
  store : Store
  error : GErr
  writes : List CacheWrite
deriving DecidableEq, Repr

/-- The final db.Error rewriting at the end of AfterQuery: a negative-cache
hit becomes gorm.ErrRecordNotFound, a primary or search cache hit becomes
nil, everything else passes through. (The multierror unwrapping above it
concerns only singleflight followers.) -/
def unwindCacheHitError (e : GErr) : GErr :=
  match e with
  | GErr.recordNotFoundCacheHit => GErr.recordNotFound
  | GErr.searchCacheHit => GErr.nilErr
  | GErr.primaryCacheHit => GErr.nilErr
  | e0 => e0

/-- AfterQuery (cache/query.go). Inputs beyond the query context: db.Error
and db.RowsAffected after the query phase, the primary keys and serialized
objects extracted from the loaded destination by getObjectsAfterLoad
(objects are carried as their JSON serializations; per-object marshal
failures, which the source merely skips, are not modelled), and the JSON
serialization of the whole destination. Behaviour: outside the allow-list
nothing is written; with nil error the search cache (level permitting,
result-set size within CacheMaxItemCnt) and the primary cache (level
permitting, key count matching object count and within CacheMaxItemCnt)
are populated — the two goroutines write to disjoint namespaces and are
applied in program order; with ErrRecordNotFound and penetration
protection enabled the "recordNotFound" sentinel is stored at the search
key; finally the hit markers are unwound. -/
def afterQuery (cfg : CacheConfig) (instanceId : String) (q : QueryCtx) (st : Store)
    (dbError : GErr) (rowsAffected : Int) (loadedPrimaryKeys : List String)
    (objects : List String) (destSerialized : String) : AfterQueryResult :=
  let searchKey := GenSearchCacheKey instanceId q.tableName q.sql q.vars
  let stWrites :=
    if !(ShouldCache q.tableName cfg.tables) then (st, [])
    else if dbError == GErr.nilErr then
      let s1 :=
        if levelIncludesSearch cfg.cacheLevel &&
            !(decide ((objects.length : Int) > cfg.cacheMaxItemCnt)) then
          let value := toString rowsAffected ++ "|" ++ destSerialized
          (storeSetKey st searchKey value, [CacheWrite.setKey searchKey value])
        else (st, ([] : List CacheWrite))
      if levelIncludesPrimary cfg.cacheLevel &&
          loadedPrimaryKeys.length == objects.length &&
          !(decide ((objects.length : Int) > cfg.cacheMaxItemCnt)) then
        let kvs := (loadedPrimaryKeys.zip objects).map
          (fun kv => (GenPrimaryCacheKey instanceId q.tableName [kv.1], kv.2))
        (storeBatchSetKeys s1.1 kvs, s1.2 ++ [CacheWrite.batchSetKeys kvs])
      else s1
    else if dbError == GErr.recordNotFound && !cfg.disableCachePenetrationProtect then
      (storeSetKey st searchKey "recordNotFound", [CacheWrite.setKey searchKey "recordNotFound"])
    else (st, [])
  { store := stWrites.1, error := unwindCacheHitError dbError, writes := stWrites.2 }

/-- One invalidation the write-path hooks issue against the storage. -/
inductive InvalidateOp
  | batchDeletePrimary (cacheKeys : List String)
  | deleteAllPrimary (keyPrefix : String)
  | batchDeleteUnique (indexName : String) (cacheKeys : List String)
  | deleteAllUnique (indexName : String) (keyPrefix : String)
  | deleteAllSearch (keyPrefix : String)
deriving DecidableEq, Repr

/-- Apply one invalidation to the Memory storage. -/
def applyOp (st : Store) : InvalidateOp → Store
  | InvalidateOp.batchDeletePrimary ks => storeBatchDeleteKeys st ks
  | InvalidateOp.deleteAllPrimary p => storeDeleteKeysWithPrefix st p
  | InvalidateOp.batchDeleteUnique _ ks => storeBatchDeleteKeys st ks
  | InvalidateOp.deleteAllUnique _ p => storeDeleteKeysWithPrefix st p
  | InvalidateOp.deleteAllSearch p => storeDeleteKeysWithPrefix st p

/-- Apply a list of invalidations in order. -/
def applyOps (st : Store) (ops : List InvalidateOp) : Store :=
  ops.foldl applyOp st

/-- The unique-cache invalidations of the AfterUpdate primary goroutine:
keys extracted from the WHERE clause are batch-deleted per index;
otherwise every unique index of the schema is prefix-swept. The bodies
of the thin wrappers BatchInvalidateUniqueCache and
InvalidateAllUniqueCache are not among the source files (only their call
sites are); their key construction is modelled from the spec (unique
entries are keyed by GenUniqueCacheKey, swept by GenUniqueCachePrefix),
mirroring the primary-cache wrappers that are in the source. -/
def afterUpdateUniqueOps (instanceId tableName : String) (schema : Option SchemaInfo)
    (whereExprs : Option (List WhereExpr)) : List InvalidateOp :=
  let uniqueKeysMap := getUniqueKeysFromWhereClause schema whereExprs
  if uniqueKeysMap.length > 0 then
    uniqueKeysMap.filterMap (fun nk =>
      if nk.2.length > 0 then
        some (InvalidateOp.batchDeleteUnique nk.1
          (nk.2.map (fun k => GenUniqueCacheKey instanceId tableName nk.1 [k])))
      else none)
  else
    match schema with
    | some s =>
        s.uniqueIndexes.map (fun idx =>
          InvalidateOp.deleteAllUnique idx.1 (GenUniqueCachePrefix instanceId tableName idx.1))
    | none => []

/-- AfterUpdate (cache/afterUpdate.go): nothing when no row was affected;
with nil error, the invalidate-on-write flag set and the table in the
allow-list, the primary goroutine (level permitting) batch-deletes the
primary keys extracted from the WHERE clause when there is at least one,
else prefix-sweeps the table's whole primary namespace, and then
invalidates the unique caches; the search goroutine (level permitting)
prefix-sweeps the table's search namespace. Storage deletions on the
in-process backend cannot fail, so the source's early-return-on-error
branches do not arise. The two goroutines touch disjoint namespaces and
are listed in program order. -/
def afterUpdateOps (cfg : CacheConfig) (instanceId tableName : String)
    (schema : Option SchemaInfo) (whereExprs : Option (List WhereExpr))
    (rowsAffected : Int) (dbError : GErr) : List InvalidateOp :=
  if rowsAffected == 0 then []
  else if dbError == GErr.nilErr && cfg.invalidateWhenUpdate &&
      ShouldCache tableName cfg.tables then
    (if levelIncludesPrimary cfg.cacheLevel then
      let primaryKeys := getPrimaryKeysFromWhereClause schema whereExprs
      (if primaryKeys.length > 0 then
        [InvalidateOp.batchDeletePrimary
          (primaryKeys.map (fun pk => GenPrimaryCacheKey instanceId tableName [pk]))]
      else [InvalidateOp.deleteAllPrimary (GenPrimaryCachePrefix instanceId tableName)]) ++
      afterUpdateUniqueOps instanceId tableName schema whereExprs
    else []) ++
    (if levelIncludesSearch cfg.cacheLevel then
      [InvalidateOp.deleteAllSearch (GenSearchCachePrefix instanceId tableName)]
    else [])
  else []

/-- AfterDelete (cache/afterDelete.go): like AfterUpdate but without the
unique-cache invalidation. -/
def afterDeleteOps (cfg : CacheConfig) (instanceId tableName : String)
    (schema : Option SchemaInfo) (whereExprs : Option (List WhereExpr))
    (rowsAffected : Int) (dbError : GErr) : List InvalidateOp :=
  if rowsAffected == 0 then []
  else if dbError == GErr.nilErr && cfg.invalidateWhenUpdate &&
      ShouldCache tableName cfg.tables then
    (if levelIncludesPrimary cfg.cacheLevel then
      let primaryKeys := getPrimaryKeysFromWhereClause schema whereExprs
      if primaryKeys.length > 0 then
        [InvalidateOp.batchDeletePrimary
          (primaryKeys.map (fun pk => GenPrimaryCacheKey instanceId tableName [pk]))]
      else [InvalidateOp.deleteAllPrimary (GenPrimaryCachePrefix instanceId tableName)]
    else []) ++
    (if levelIncludesSearch cfg.cacheLevel then
      [InvalidateOp.deleteAllSearch (GenSearchCachePrefix instanceId tableName)]
    else [])
  else []

/-- AfterCreate (cache/afterCreate.go): with nil error, the
invalidate-on-write flag set, the table in the allow-list and a cache
level that includes search lookups, the table's search namespace is
prefix-swept; nothing else is touched. (Unlike AfterUpdate and
AfterDelete, the source has no rows-affected guard.) -/
def afterCreateOps (cfg : CacheConfig) (instanceId tableName : String)
    (dbError : GErr) : List InvalidateOp :=
  if dbError == GErr.nilErr && cfg.invalidateWhenUpdate &&
      ShouldCache tableName cfg.tables then
    if levelIncludesSearch cfg.cacheLevel then
      [InvalidateOp.deleteAllSearch (GenSearchCachePrefix instanceId tableName)]
    else []
  else []

/-- A singleflight call record (the fields relevant to registry removal:
its key and whether Forget marked it while in flight). The result fields
(dest, rowsAffected, err) and the wait group are orthogonal to the
removal protocol. -/
structure SFCall where
  key : String
  forgotten : Bool
deriving DecidableEq, Repr, Inhabited

/-- The singleflight state: the registry map from call key to call record
(records live on a small heap, referenced by index, because Forget and
the completing leader share the record through a pointer) and the heap of
call records. Each operation below corresponds to one critical section of
the registry mutex and is therefore modelled as one atomic transition. -/
structure SFState where
  registry : List (String × Nat)
  calls : List SFCall
deriving DecidableEq, Repr

/-- Registry map lookup. -/
def sfFind (r : List (String × Nat)) (key : String) : Option Nat :=
  assocFind r key

/-- Mark the call record at an index forgotten. -/
def sfSetForgotten (calls : List SFCall) (cid : Nat) : List SFCall :=
  calls.set cid { (calls.getD cid default) with forgotten := true }

/-- Group.Forget: under the mutex, mark the registered record (if any)
forgotten, then delete the key from the registry unconditionally. The
returned Bool tells whether the delete actually removed an entry. -/
def sfForget (s : SFState) (key : String) : SFState × Bool :=
  let deleted := (sfFind s.registry key).isSome
  let calls :=
    match sfFind s.registry key with
    | some cid => sfSetForgotten s.calls cid
    | none => s.calls
  (⟨s.registry.filter (fun kv => !(kv.1 == key)), calls⟩, deleted)

/-- The registry-cleanup step of fillCallAfterQuery: under the mutex the
completing leader deletes its record's key from the registry unless the
record was forgotten. The returned Bool tells whether an entry was
actually removed. -/
def sfFillCallCleanup (s : SFState) (cid : Nat) : SFState × Bool :=
  let c := s.calls.getD cid default
  if c.forgotten then (s, false)
  else
    (⟨s.registry.filter (fun kv => !(kv.1 == c.key)), s.calls⟩,
      (sfFind s.registry c.key).isSome)

/-- Modelled from the spec: the before-query point-lookup probe is
specified to apply "to the full primary-key column set (or a full
unique-index column set)". This predicate renders the unique-index half
of that sentence: the WHERE clause consists solely of equality/IN
constraints on the columns of some unique index of the schema and every
column of that index is constrained. It exists to be compared with the
behaviour of the implemented BeforeQuery, which has no unique-index
probe. -/
def specUniqueProbeApplies (schema : Option SchemaInfo)
    (whereExprs : Option (List WhereExpr)) : Bool :=
  match schema, whereExprs with
  | some s, some exprs =>
      s.uniqueIndexes.any (fun idx =>
        !idx.2.isEmpty &&
        !(idx.2.any (fun f => (mapGet (collectFieldValues exprs) f).isEmpty)) &&
        exprs.all (fun e =>
          match e with
          | WhereExpr.eq col _ => idx.2.contains col
          | WhereExpr.inList col _ => idx.2.contains col
          | _ => false))
  | _, _ => false

/-- A config with CacheMaxItemCnt = 0 (the documented "cache all
queries" setting), level All, table "t" allow-listed, invalidation and
penetration protection on. -/
def cfgMax0 : CacheConfig :=
  ⟨CacheLevel.all, ["t"], true, false, 1000, 0, false⟩

/-- The same config with CacheMaxItemCnt = 1. -/
def cfgMax1 : CacheConfig :=
  ⟨CacheLevel.all, ["t"], true, false, 1000, 1, false⟩

/-- A point query on table "t" by its single primary-key column. -/
def qById : QueryCtx :=
  { tableName := "t"
    sql := "SELECT * FROM t WHERE id = ?"
    vars := ["1"]
    schema := some ⟨["id"], []⟩
    whereExprs := some [WhereExpr.eq "id" "1"]
    destKind := DestKind.structKind
    decodeOk := fun _ => true }

/-- A config at CacheLevelOnlyPrimary with table "t" allow-listed. -/
def cfgOnlyPrimary : CacheConfig :=
  ⟨CacheLevel.onlyPrimary, ["t"], true, false, 1000, 100, false⟩

/-- An IN query over two primary keys whose destination is a single
struct: the retrieved batch can never fit the destination shape. -/
def qTwoIdsStructDest : QueryCtx :=
  { tableName := "t"
    sql := "SELECT * FROM t WHERE id IN (?)"
    vars := ["1", "2"]
    schema := some ⟨["id"], []⟩
    whereExprs := some [WhereExpr.inList "id" ["1", "2"]]
    destKind := DestKind.structKind
    decodeOk := fun _ => true }

/-- A store holding primary-cache entries for keys 1 and 2 of table "t". -/
def stTwoPrimaries : Store :=
  [(GenPrimaryCacheKey "inst" "t" ["1"], "obj1"),
   (GenPrimaryCacheKey "inst" "t" ["2"], "obj2")]

/-- A query on table "t" constraining exactly the single column of the
unique index idx_name (and not the primary key). -/
def qByUniqueName : QueryCtx :=
  { tableName := "t"
    sql := "SELECT * FROM t WHERE name = ?"
    vars := ["bob"]
    schema := some ⟨["id"], [("idx_name", ["name"])]⟩
    whereExprs := some [WhereExpr.eq "name" "bob"]
    destKind := DestKind.structKind
    decodeOk := fun _ => true }

/-- A store holding exactly the unique-cache entry for that tuple. -/
def stUniqueEntry : Store :=
  [(GenUniqueCacheKey "inst" "t" "idx_name" ["bob"], "payload")]

/-- A store holding one search-cache entry of table "t". -/
def stOneSearchEntry : Store :=
  [(GenSearchCacheKey "inst" "t" "SELECT 1" [], "1|payload")]

/-- A config whose allow-list does not contain table "t". -/
def cfgOtherTable : CacheConfig :=
  ⟨CacheLevel.all, ["other"], true, false, 1000, 100, false⟩

/-- Fresh backend states (nothing initialised yet). -/
def redisFresh : RedisStore := ⟨0, false, false⟩

/-- Fresh Gcache state. -/
def gcacheFresh : GcacheStore := ⟨none, false, false⟩

/-- Fresh Memory state. -/
def memFresh : MemoryStore := ⟨0, []⟩

/-- A singleflight state with one in-flight, unforgotten record. -/
def sfOneCall : SFState := ⟨[("k", 0)], [⟨"k", false⟩]⟩

end GormCache

namespace GormCache

/-- Keeping only the entries whose key fails a predicate leaves the
lookup of any key failing the predicate unchanged. -/
theorem assocFind_filter_of_pred_false {β : Type} (r : List (String × β))
    (pred : String → Bool) (k : String) (h : pred k = false) :
    assocFind (r.filter (fun kv => !(pred kv.1))) k = assocFind r k := by
  induction r with
  | nil => rfl
  | cons kv rest ih =>
      obtain ⟨a, b⟩ := kv
      by_cases hp : pred a
      · have hak : (a == k) = false := by
          refine beq_eq_false_iff_ne.mpr ?_
          intro e
          rw [e, h] at hp
          exact Bool.false_ne_true hp
        simp [List.filter_cons, hp, assocFind, hak, ih]
      · by_cases hak : a = k
        · simp [List.filter_cons, hp, assocFind, hak, h]
        · have hf : (a == k) = false := beq_eq_false_iff_ne.mpr hak
          simp [List.filter_cons, hp, assocFind, hf, ih]

/-- Keeping only the entries whose key fails a predicate removes every
key passing the predicate. -/
theorem assocFind_filter_of_pred_true {β : Type} (r : List (String × β))
    (pred : String → Bool) (k : String) (h : pred k = true) :
    assocFind (r.filter (fun kv => !(pred kv.1))) k = none := by
  induction r with
  | nil => rfl
  | cons kv rest ih =>
      obtain ⟨a, b⟩ := kv
      by_cases hp : pred a
      · simp [List.filter_cons, hp, ih]
      · have hak : (a == k) = false := by
          refine beq_eq_false_iff_ne.mpr ?_
          intro e
          rw [e, h] at hp
          exact hp rfl
        simp [List.filter_cons, hp, assocFind, hak, ih]

/-- Looking a key up after inserting it finds the inserted value. -/
theorem storeLookup_setKey_self (st : Store) (k v : String) :
    storeLookup (storeSetKey st k v) k = some v := by
  simp [storeSetKey, storeLookup, assocFind]

/-- Inserting one key leaves the lookup of every other key unchanged. -/
theorem storeLookup_setKey_other (st : Store) (k v k2 : String) (h : k2 ≠ k) :
    storeLookup (storeSetKey st k v) k2 = storeLookup st k2 := by
  have hne : (k == k2) = false := beq_eq_false_iff_ne.mpr (fun e => h e.symm)
  have hp : (fun x => x == k) k2 = false := by
    simpa using beq_eq_false_iff_ne.mpr h
  simpa [storeSetKey, storeLookup, assocFind, hne] using
    assocFind_filter_of_pred_false st (fun x => x == k) k2 hp

/-- A prefix sweep leaves every key outside the prefix untouched. -/
theorem storeLookup_deletePrefix_other (st : Store) (p k : String)
    (h : goHasPrefix k p = false) :
    storeLookup (storeDeleteKeysWithPrefix st p) k = storeLookup st k := by
  simpa [storeDeleteKeysWithPrefix, storeLookup] using
    assocFind_filter_of_pred_false st (fun x => goHasPrefix x p) k h

/-- A batch delete leaves every key outside the batch untouched. -/
theorem storeLookup_batchDelete_other (st : Store) (keys : List String) (k : String)
    (h : keys.contains k = false) :
    storeLookup (storeBatchDeleteKeys st keys) k = storeLookup st k := by
  simpa [storeBatchDeleteKeys, storeLookup] using
    assocFind_filter_of_pred_false st (fun x => keys.contains x) k h

/-- Setting an index of a list then reading it back with a default gives
the written value, when the index is in range. -/
theorem getD_set_self {α : Type} (l : List α) (i : Nat) (v d : α) (h : i < l.length) :
    (l.set i v).getD i d = v := by
  induction l generalizing i with
  | nil => simp at h
  | cons a rest ih =>
      cases i with
      | zero => rfl
      | succ n =>
          have hlt : n < rest.length := by
            simpa [List.length_cons, Nat.succ_lt_succ_iff] using h
          simpa [List.set, List.getD] using ih n hlt

/-- Marking a call record forgotten changes nothing but its flag. -/
theorem sfSetForgotten_getD (calls : List SFCall) (cid : Nat) (h : cid < calls.length) :
    (sfSetForgotten calls cid).getD cid default =
      { (calls.getD cid default) with forgotten := true } := by
  unfold sfSetForgotten
  exact getD_set_self calls cid _ default h

/-- Forget on a registered key: the record is marked forgotten, the key
is deleted, and the deletion removed an entry. -/
theorem sfForget_present (s : SFState) (k : String) (cid : Nat)
    (hFind : sfFind s.registry k = some cid) :
    sfForget s k =
      (⟨s.registry.filter (fun kv => !(kv.1 == k)), sfSetForgotten s.calls cid⟩, true) := by
  simp [sfForget, hFind]

/-- Forget on an unregistered key: no record is marked and the delete
removes nothing. -/
theorem sfForget_absent (s : SFState) (k : String)
    (hFind : sfFind s.registry k = none) :
    sfForget s k = (⟨s.registry.filter (fun kv => !(kv.1 == k)), s.calls⟩, false) := by
  simp [sfForget, hFind]

/-- Completion cleanup of a forgotten record is a no-op. -/
theorem sfFillCallCleanup_forgotten (s : SFState) (cid : Nat)
    (h : (s.calls.getD cid default).forgotten = true) :
    sfFillCallCleanup s cid = (s, false) := by
  simp only [sfFillCallCleanup]
  rw [h]
  simp

/-- Completion cleanup of a live record deletes its key. -/
theorem sfFillCallCleanup_live (s : SFState) (cid : Nat) (k : String)
    (hf : (s.calls.getD cid default).forgotten = false)
    (hk : (s.calls.getD cid default).key = k) :
    sfFillCallCleanup s cid =
      (⟨s.registry.filter (fun kv => !(kv.1 == k)), s.calls⟩,
        (sfFind s.registry k).isSome) := by
  simp only [sfFillCallCleanup]
  rw [hf, hk]
  simp

/-- Every branch of trySearchCache reads exactly the search key. -/
theorem trySearchCache_readKeys (st : Store) (iid : String) (q : QueryCtx) :
    (trySearchCache st iid q).readKeys =
      [GenSearchCacheKey iid q.tableName q.sql q.vars] := by
  unfold trySearchCache
  dsimp only
  repeat' split
  all_goals rfl

/-- trySearchCache either hits or leaves db.Error nil: every miss branch
(absent key, fetch error, unparsable count, failed unmarshal) writes nil
into db.Error. -/
theorem trySearchCache_cases (st : Store) (iid : String) (q : QueryCtx) :
    (trySearchCache st iid q).hitted = true ∨
    (trySearchCache st iid q).error = GErr.nilErr := by
  unfold trySearchCache
  dsimp only
  repeat' split
  all_goals simp

/-- The stored negative-cache sentinel makes trySearchCache hit with the
RecordNotFoundCacheHit marker. -/
theorem trySearchCache_sentinel (st : Store) (iid : String) (q : QueryCtx)
    (h : storeLookup st (GenSearchCacheKey iid q.tableName q.sql q.vars) =
      some "recordNotFound") :
    trySearchCache st iid q =
      ⟨true, GErr.recordNotFoundCacheHit, none,
        [GenSearchCacheKey iid q.tableName q.sql q.vars], false⟩ := by
  unfold trySearchCache
  dsimp only
  rw [h]
  simp

/-- db.Error after tryPrimaryCache is the incoming error, nil, the
deserialization error, or the primary-hit marker. -/
theorem tryPrimaryCache_error_cases (st : Store) (iid : String) (q : QueryCtx) (errIn : GErr) :
    (tryPrimaryCache st iid q errIn).error = errIn ∨
    (tryPrimaryCache st iid q errIn).error = GErr.nilErr ∨
    (tryPrimaryCache st iid q errIn).error = GErr.cacheUnmarshal ∨
    (tryPrimaryCache st iid q errIn).error = GErr.primaryCacheHit := by
  unfold tryPrimaryCache
  dsimp only
  repeat' split
  all_goals simp

/-- tryPrimaryCache fetches either nothing or exactly the cache keys of
the extracted primary-key tuples — and in the latter case the extraction
was non-empty and the WHERE clause had no other constraint. -/
theorem tryPrimaryCache_readKeys_cases (st : Store) (iid : String) (q : QueryCtx)
    (errIn : GErr) :
    (tryPrimaryCache st iid q errIn).readKeys = [] ∨
    ((tryPrimaryCache st iid q errIn).readKeys =
        (getPrimaryKeysFromWhereClause q.schema q.whereExprs).map
          (fun pk => GenPrimaryCacheKey iid q.tableName [pk]) ∧
      getPrimaryKeysFromWhereClause q.schema q.whereExprs ≠ [] ∧
      hasOtherClauseExceptPrimaryField q.schema q.whereExprs = false) := by
  unfold tryPrimaryCache
  by_cases h1 : (getPrimaryKeysFromWhereClause q.schema q.whereExprs).isEmpty
  · left
    simp [h1]
  · by_cases h2 : hasOtherClauseExceptPrimaryField q.schema q.whereExprs
    · left
      simp [h1, h2]
    · right
      have h1' : getPrimaryKeysFromWhereClause q.schema q.whereExprs ≠ [] := by
        simpa [List.isEmpty_iff] using h1
      have h2' : hasOtherClauseExceptPrimaryField q.schema q.whereExprs = false := by
        simpa using h2
      refine ⟨?_, h1', h2'⟩
      simp only [h1, Bool.false_eq_true, if_false, h2', if_false]
      repeat' split
      all_goals rfl

/-- A tryPrimaryCache hit presupposes that the batch fetch succeeded with
exactly as many values as requested keys. -/
theorem tryPrimaryCache_hit_counts (st : Store) (iid : String) (q : QueryCtx) (errIn : GErr)
    (h : (tryPrimaryCache st iid q errIn).hitted = true) :
    ∃ values,
      storeBatchGetValues st
        ((getPrimaryKeysFromWhereClause q.schema q.whereExprs).map
          (fun pk => GenPrimaryCacheKey iid q.tableName [pk])) = some values ∧
      values.length = (getPrimaryKeysFromWhereClause q.schema q.whereExprs).length := by
  by_cases h1 : (getPrimaryKeysFromWhereClause q.schema q.whereExprs).isEmpty
  · simp [tryPrimaryCache, h1] at h
  · have h1' : (getPrimaryKeysFromWhereClause q.schema q.whereExprs).isEmpty = false := by
      simpa using h1
    by_cases h2 : hasOtherClauseExceptPrimaryField q.schema q.whereExprs
    · simp [tryPrimaryCache, h1', h2] at h
    · have h2' : hasOtherClauseExceptPrimaryField q.schema q.whereExprs = false := by
        simpa using h2
      rcases hbg : storeBatchGetValues st
          ((getPrimaryKeysFromWhereClause q.schema q.whereExprs).map
            (fun pk => GenPrimaryCacheKey iid q.tableName [pk])) with _ | values
      · simp [tryPrimaryCache, h1', h2', hbg] at h
      · by_cases h3 : values.length != (getPrimaryKeysFromWhereClause q.schema q.whereExprs).length
        · simp [tryPrimaryCache, h1', h2', hbg, h3] at h
        · exact ⟨values, hbg ▸ rfl, by simpa using h3⟩

/-- A non-empty primary-key extraction means every primary-key column
collected at least one value from the WHERE clause. -/
theorem getPrimaryKeys_nonEmpty_full_set (s : SchemaInfo) (exprs : List WhereExpr)
    (h : getPrimaryKeysFromWhereClause (some s) (some exprs) ≠ []) :
    ∀ f ∈ s.primaryFields, (mapGet (collectFieldValues exprs) f).isEmpty = false := by
  intro f hf
  unfold getPrimaryKeysFromWhereClause at h
  by_cases h1 : s.primaryFields.isEmpty
  · simp [h1] at h
  · by_cases h2 : s.primaryFields.any (fun g => (mapGet (collectFieldValues exprs) g).isEmpty)
    · simp [h1, h2] at h
    · have hall := fun hx => h2 (List.any_eq_true.mpr hx)
      by_cases hfe : (mapGet (collectFieldValues exprs) f).isEmpty
      · exact absurd ⟨f, hf, hfe⟩ hall
      · simpa using hfe

/-- BeforeQuery when the primary probe is skipped or misses under a level
that includes search: the outcome is the search probe's. -/
theorem beforeQuery_searchPhase (cfg : CacheConfig) (iid : String) (q : QueryCtx) (st : Store)
    (hsc : ShouldCache q.tableName cfg.tables = true)
    (hLS : levelIncludesSearch cfg.cacheLevel = true)
    (hp : levelIncludesPrimary cfg.cacheLevel = false ∨
      (tryPrimaryCache st iid q GErr.nilErr).hitted = false) :
    beforeQuery cfg iid q st =
      { error :=
          if (trySearchCache st iid q).panicked then
            (if levelIncludesPrimary cfg.cacheLevel then
              (tryPrimaryCache st iid q GErr.nilErr).error
            else GErr.nilErr)
          else (trySearchCache st iid q).error
        rowsAffected := (trySearchCache st iid q).rowsAffected
        hit := (trySearchCache st iid q).hitted
        statsTouched := true
        singleflightRegistered := true
        readKeys :=
          (if levelIncludesPrimary cfg.cacheLevel then
            (tryPrimaryCache st iid q GErr.nilErr).readKeys
          else []) ++ (trySearchCache st iid q).readKeys
        panicked := (trySearchCache st iid q).panicked } := by
  rcases hp with hp | hp
  · simp [beforeQuery, hsc, hp, hLS]
  · by_cases hlp : levelIncludesPrimary cfg.cacheLevel
    · simp [beforeQuery, hsc, hlp, hp, hLS]
    · have hlp' : levelIncludesPrimary cfg.cacheLevel = false := by simpa using hlp
      simp [beforeQuery, hsc, hlp', hLS]

/-- BeforeQuery at CacheLevelOnlyPrimary: db.Error afterwards is exactly
what tryPrimaryCache left there. -/
theorem beforeQuery_onlyPrimary_error (cfg : CacheConfig) (iid : String) (q : QueryCtx)
    (st : Store)
    (hsc : ShouldCache q.tableName cfg.tables = true)
    (hOP : cfg.cacheLevel = CacheLevel.onlyPrimary) :
    (beforeQuery cfg iid q st).error = (tryPrimaryCache st iid q GErr.nilErr).error := by
  have hLP : levelIncludesPrimary cfg.cacheLevel = true := by rw [hOP]; rfl
  have hLS : levelIncludesSearch cfg.cacheLevel = false := by rw [hOP]; rfl
  by_cases hp : (tryPrimaryCache st iid q GErr.nilErr).hitted
  · simp [beforeQuery, hsc, hLP, hLS, hp]
  · have hp' : (tryPrimaryCache st iid q GErr.nilErr).hitted = false := by simpa using hp
    simp [beforeQuery, hsc, hLP, hLS, hp']

end GormCache

namespace GormCache

/-- C10 (part): Go strings.Join of two elements is the first, the
separator, then the second. -/
theorem stringsJoin_pair (a b sep : String) :
    stringsJoin [a, b] sep = a ++ sep ++ b := rfl

/-- C10: `GenPrimaryCacheKey(i,t,a,b)` equals `GenPrimaryCacheKey(i,t,a+":"+b)`
and likewise for `GenUniqueCacheKey`; hence the tuple-to-key encoding is not
injective: the one-element tuple ("1:2") and the pair ("1","2") produce the
same cache key although the tuples differ. -/
theorem C10_tuple_key_encoding_not_injective :
    (∀ instanceId tableName a b : String,
        GenPrimaryCacheKey instanceId tableName [a, b] =
          GenPrimaryCacheKey instanceId tableName [a ++ ":" ++ b]) ∧
    (∀ instanceId tableName idxName a b : String,
        GenUniqueCacheKey instanceId tableName idxName [a, b] =
          GenUniqueCacheKey instanceId tableName idxName [a ++ ":" ++ b]) ∧
    ((["1:2"] : List String) ≠ ["1", "2"] ∧
      GenPrimaryCacheKey "inst" "tbl" ["1:2"] = GenPrimaryCacheKey "inst" "tbl" ["1", "2"]) := by
  refine ⟨?_, ?_, ?_, ?_⟩
  · intro instanceId tableName a b
    simp [GenPrimaryCacheKey, stringsJoin]
  · intro instanceId tableName idxName a b
    simp [GenUniqueCacheKey, stringsJoin]
  · decide
  · rfl

/-- C1: with CacheMaxItemCnt = 0 — documented in the config as "0
represents caching all queries" — the after-query population of both the
search cache and the primary-key cache is skipped for every non-empty
result set (the guard `len(objects) > CacheMaxItemCnt` reads 1 > 0), so
a successful one-row query writes nothing to the cache; with
CacheMaxItemCnt = 1 the same query is cached. This evaluates the code at
the failing input of the documented-behaviour bug. -/
theorem C1_maxItemCnt_zero_skips_all_population :
    (afterQuery cfgMax0 "inst" qById [] GErr.nilErr 1 ["1"] ["obj1"] "serialized").writes = [] ∧
    (afterQuery cfgMax0 "inst" qById [] GErr.nilErr 1 ["1"] ["obj1"] "serialized").store = [] ∧
    (afterQuery cfgMax1 "inst" qById [] GErr.nilErr 1 ["1"] ["obj1"] "serialized").writes =
      [CacheWrite.setKey (GenSearchCacheKey "inst" "t" qById.sql qById.vars) "1|serialized",
       CacheWrite.batchSetKeys [(GenPrimaryCacheKey "inst" "t" ["1"], "obj1")]] := by
  decide

/-- C8 counterexample: the Memory backend's Init has no once-guard — a
second Init with TTL 2000 after a first Init with TTL 1000 leaves the
effective TTL at 2000, so the second call is not a configuration-retaining
no-op. -/
theorem C8_counterexample_memory_init_not_once :
    (memoryInit (memoryInit memFresh 1000) 2000).ttl = 2000 ∧ ((2000 : Int) ≠ 1000) := by
  decide

/-- C8 amended: the Redis and Gcache backends guard Init with sync.Once —
a second Init with any other TTL is a no-op returning success and the
effective TTL stays the first call's; the Memory backend's Init instead
re-initialises the store and adopts the TTL of the second call. -/
theorem C8_amended_init_once_semantics (t1 t2 : Int) :
    redisInit (redisInit redisFresh t1) t2 = redisInit redisFresh t1 ∧
    (redisInit redisFresh t1).ttl = t1 ∧
    gcacheInit (gcacheInit gcacheFresh t1) t2 = gcacheInit gcacheFresh t1 ∧
    (memoryInit (memoryInit memFresh t1) t2).ttl = t2 := by
  refine ⟨?_, ?_, ?_, rfl⟩ <;> simp [redisInit, gcacheInit, redisFresh, gcacheFresh]

/-- C9: the in-flight record is removed from the registry exactly once.
Each critical section is one atomic transition (both operations take the
registry mutex). In either serialization order — Forget before the
leader's completion cleanup, or completion cleanup before Forget —
whichever runs first removes the record (its Bool is true) while the
second removes nothing (its Bool is false), and afterwards the key is
gone from the registry. -/
theorem C9_registry_removed_exactly_once (s : SFState) (k : String) (cid : Nat)
    (hFind : sfFind s.registry k = some cid)
    (hCid : cid < s.calls.length)
    (hKey : (s.calls.getD cid default).key = k)
    (hNotF : (s.calls.getD cid default).forgotten = false) :
    ((sfForget s k).2 = true ∧
      (sfFillCallCleanup (sfForget s k).1 cid).2 = false ∧
      sfFind (sfFillCallCleanup (sfForget s k).1 cid).1.registry k = none) ∧
    ((sfFillCallCleanup s cid).2 = true ∧
      (sfForget (sfFillCallCleanup s cid).1 k).2 = false ∧
      sfFind (sfForget (sfFillCallCleanup s cid).1 k).1.registry k = none) := by
  have hpk : (fun x => x == k) k = true := by simp
  have hgone : sfFind (s.registry.filter (fun kv => !(kv.1 == k))) k = none := by
    simpa [sfFind] using assocFind_filter_of_pred_true s.registry (fun x => x == k) k hpk
  constructor
  · -- Forget first, then the leader's completion cleanup.
    have hA1 : sfForget s k =
        (⟨s.registry.filter (fun kv => !(kv.1 == k)), sfSetForgotten s.calls cid⟩, true) :=
      sfForget_present s k cid hFind
    have hforg :
        (((⟨s.registry.filter (fun kv => !(kv.1 == k)), sfSetForgotten s.calls cid⟩ :
            SFState)).calls.getD cid default).forgotten = true := by
      show ((sfSetForgotten s.calls cid).getD cid default).forgotten = true
      rw [sfSetForgotten_getD s.calls cid hCid]
    have hA2 := sfFillCallCleanup_forgotten _ cid hforg
    refine ⟨by rw [hA1], by rw [hA1, hA2], ?_⟩
    rw [hA1, hA2]
    exact hgone
  · -- Completion cleanup first, then Forget.
    have hB1 : sfFillCallCleanup s cid =
        (⟨s.registry.filter (fun kv => !(kv.1 == k)), s.calls⟩, true) := by
      rw [sfFillCallCleanup_live s cid k hNotF hKey, hFind]
      rfl
    have hB2 := sfForget_absent
      (⟨s.registry.filter (fun kv => !(kv.1 == k)), s.calls⟩ : SFState) k hgone
    refine ⟨by rw [hB1], by rw [hB1, hB2], ?_⟩
    rw [hB1, hB2]
    simpa [sfFind] using
      assocFind_filter_of_pred_true (s.registry.filter (fun kv => !(kv.1 == k)))
        (fun x => x == k) k hpk

/-- C9 witness: the protocol at a concrete one-record registry. -/
theorem C9_registry_removed_exactly_once_witness :
    (sfForget sfOneCall "k").2 = true ∧ (sfFillCallCleanup sfOneCall 0).2 = true :=
  ⟨(C9_registry_removed_exactly_once sfOneCall "k" 0 (by decide) (by decide)
      (by decide) (by decide)).1.1,
   (C9_registry_removed_exactly_once sfOneCall "k" 0 (by decide) (by decide)
      (by decide) (by decide)).2.1⟩

/-- C6 counterexample: at CacheLevelOnlyPrimary — a configuration the
claim's hypotheses admit — a successful create on the allow-listed table
with InvalidateWhenUpdate set deletes nothing at all: an existing
search-cache entry of the table survives, so "every search-cache entry
for the table is prefix-deleted" fails as stated. -/
theorem C6_counterexample_create_only_primary_level :
    cfgOnlyPrimary.invalidateWhenUpdate = true ∧
    ShouldCache "t" cfgOnlyPrimary.tables = true ∧
    afterCreateOps cfgOnlyPrimary "inst" "t" GErr.nilErr = [] ∧
    storeLookup (applyOps stOneSearchEntry (afterCreateOps cfgOnlyPrimary "inst" "t" GErr.nilErr))
      (GenSearchCacheKey "inst" "t" "SELECT 1" []) = some "1|payload" := by
  decide

/-- C6 amended: after a successful create (the source has no
rows-affected guard, so the claim's at-least-one-row hypothesis is not
needed by the code) on an allow-listed table with InvalidateWhenUpdate
set, PROVIDED the cache level includes search lookups, the single
invalidation issued is the prefix-sweep of the table's search namespace,
and every key outside that prefix — in particular every primary- and
unique-namespace entry — is untouched. -/
theorem C6_amended_create_invalidates_search_only (cfg : CacheConfig) (iid t : String)
    (st : Store) (err : GErr)
    (hErr : err = GErr.nilErr)
    (hInv : cfg.invalidateWhenUpdate = true)
    (hTab : ShouldCache t cfg.tables = true)
    (hLvl : levelIncludesSearch cfg.cacheLevel = true) :
    afterCreateOps cfg iid t err =
      [InvalidateOp.deleteAllSearch (GenSearchCachePrefix iid t)] ∧
    ∀ k, goHasPrefix k (GenSearchCachePrefix iid t) = false →
      storeLookup (applyOps st (afterCreateOps cfg iid t err)) k = storeLookup st k := by
  have hops : afterCreateOps cfg iid t err =
      [InvalidateOp.deleteAllSearch (GenSearchCachePrefix iid t)] := by
    simp [afterCreateOps, hErr, hInv, hTab, hLvl]
  refine ⟨hops, ?_⟩
  intro k hk
  rw [hops]
  simp only [applyOps, List.foldl_cons, List.foldl_nil, applyOp]
  exact storeLookup_deletePrefix_other st _ k hk

/-- C6 amended witness: concrete create at CacheLevelAll; the sweep is
issued and the table's primary-cache entry survives untouched. -/
theorem C6_amended_create_invalidates_search_only_witness :
    afterCreateOps cfgMax1 "inst" "t" GErr.nilErr =
      [InvalidateOp.deleteAllSearch (GenSearchCachePrefix "inst" "t")] ∧
    storeLookup (applyOps stTwoPrimaries (afterCreateOps cfgMax1 "inst" "t" GErr.nilErr))
      (GenPrimaryCacheKey "inst" "t" ["1"]) = storeLookup stTwoPrimaries
      (GenPrimaryCacheKey "inst" "t" ["1"]) :=
  ⟨(C6_amended_create_invalidates_search_only cfgMax1 "inst" "t" stTwoPrimaries GErr.nilErr
      rfl (by decide) (by decide) (by decide)).1,
   (C6_amended_create_invalidates_search_only cfgMax1 "inst" "t" stTwoPrimaries GErr.nilErr
      rfl (by decide) (by decide) (by decide)).2
      (GenPrimaryCacheKey "inst" "t" ["1"]) (by decide)⟩

/-- C7: for a table outside a non-empty allow-list nothing of the cache
layer runs: BeforeQuery performs no cache read, registers no singleflight
record, leaves the error slot nil (so the read falls through to the
upstream query) and does not touch the statistics; AfterQuery stores
nothing; and the three write hooks issue no invalidation. -/
theorem C7_non_allowlisted_table_untouched (cfg : CacheConfig) (iid : String) (q : QueryCtx)
    (st : Store) (err : GErr) (rows : Int) (pks objs : List String) (dest : String)
    (schema : Option SchemaInfo) (wh : Option (List WhereExpr))
    (hNe : cfg.tables ≠ [])
    (hNotIn : cfg.tables.contains q.tableName = false) :
    beforeQuery cfg iid q st =
      { error := GErr.nilErr, rowsAffected := none, hit := false, statsTouched := false
        singleflightRegistered := false, readKeys := [], panicked := false } ∧
    (afterQuery cfg iid q st err rows pks objs dest).store = st ∧
    (afterQuery cfg iid q st err rows pks objs dest).writes = [] ∧
    afterUpdateOps cfg iid q.tableName schema wh rows err = [] ∧
    afterDeleteOps cfg iid q.tableName schema wh rows err = [] ∧
    afterCreateOps cfg iid q.tableName err = [] := by
  have hsc : ShouldCache q.tableName cfg.tables = false := by
    unfold ShouldCache
    cases htab : cfg.tables with
    | nil => exact absurd htab hNe
    | cons a rest =>
        rw [htab] at hNotIn
        rw [hNotIn]
        simp
  refine ⟨?_, ?_, ?_, ?_, ?_, ?_⟩
  · simp [beforeQuery, hsc]
  · simp [afterQuery, hsc]
  · simp [afterQuery, hsc]
  · by_cases hr : rows == 0 <;> simp [afterUpdateOps, hsc, hr]
  · by_cases hr : rows == 0 <;> simp [afterDeleteOps, hsc, hr]
  · simp [afterCreateOps, hsc]

/-- C7 witness: a concrete non-allow-listed read and write touch
nothing. -/
theorem C7_non_allowlisted_table_untouched_witness :
    beforeQuery cfgOtherTable "inst" qById stTwoPrimaries =
      { error := GErr.nilErr, rowsAffected := none, hit := false, statsTouched := false
        singleflightRegistered := false, readKeys := [], panicked := false } ∧
    afterUpdateOps cfgOtherTable "inst" "t" (some ⟨["id"], []⟩)
      (some [WhereExpr.eq "id" "1"]) 1 GErr.nilErr = [] :=
  ⟨(C7_non_allowlisted_table_untouched cfgOtherTable "inst" qById stTwoPrimaries
      GErr.nilErr 1 [] [] "" (some ⟨["id"], []⟩) (some [WhereExpr.eq "id" "1"])
      (by decide) (by decide)).1,
   (C7_non_allowlisted_table_untouched cfgOtherTable "inst" qById stTwoPrimaries
      GErr.nilErr 1 [] [] "" (some ⟨["id"], []⟩) (some [WhereExpr.eq "id" "1"])
      (by decide) (by decide)).2.2.2.1⟩

/-- C2 counterexample: at CacheLevelOnlyPrimary, a stored primary-cache
batch whose shape does not match the destination (two values for a
single-struct destination) makes BeforeQuery leave util.ErrCacheUnmarshal
in db.Error; the upstream query is therefore skipped (gorm's query
callback requires a nil error) and AfterQuery's unwinding hands the
cache-layer deserialization error to the caller instead of treating the
undecodable payload as a miss. -/
theorem C2_counterexample_unmarshal_error_escapes :
    (beforeQuery cfgOnlyPrimary "inst" qTwoIdsStructDest stTwoPrimaries).error =
      GErr.cacheUnmarshal ∧
    (beforeQuery cfgOnlyPrimary "inst" qTwoIdsStructDest stTwoPrimaries).hit = false ∧
    upstreamWillRun (beforeQuery cfgOnlyPrimary "inst" qTwoIdsStructDest stTwoPrimaries) =
      false ∧
    (afterQuery cfgOnlyPrimary "inst" qTwoIdsStructDest stTwoPrimaries
      GErr.cacheUnmarshal 0 [] [] "").error = GErr.cacheUnmarshal := by
  decide

/-- C2 amended: undecodable cache payloads are treated as a miss with the
upstream query still running — except in one case. Under CacheLevelAll
every non-hit outcome of the probe pipeline (absent keys, fetch errors,
unparsable search payloads, failed unmarshalling — the primary probe's
ErrCacheUnmarshal included, because the following search probe overwrites
it) leaves db.Error nil, so the read falls through to upstream with no
cache-layer error. Under CacheLevelOnlyPrimary, however, db.Error after
BeforeQuery is exactly what tryPrimaryCache left, so a primary payload
that does not fit the destination or fails unmarshalling escapes to the
caller as ErrCacheUnmarshal. -/
theorem C2_amended_decode_failure_policy (cfg : CacheConfig) (iid : String) (q : QueryCtx)
    (st : Store)
    (hNoPanic : (beforeQuery cfg iid q st).panicked = false) :
    (cfg.cacheLevel = CacheLevel.all → (beforeQuery cfg iid q st).hit = false →
      (beforeQuery cfg iid q st).error = GErr.nilErr) ∧
    (cfg.cacheLevel = CacheLevel.onlyPrimary →
      ShouldCache q.tableName cfg.tables = true →
      (beforeQuery cfg iid q st).error = (tryPrimaryCache st iid q GErr.nilErr).error ∧
      ((beforeQuery cfg iid q st).error = GErr.nilErr ∨
       (beforeQuery cfg iid q st).error = GErr.cacheUnmarshal ∨
       (beforeQuery cfg iid q st).error = GErr.primaryCacheHit)) := by
  constructor
  · intro hAll hMiss
    by_cases hsc : ShouldCache q.tableName cfg.tables
    · have hLP : levelIncludesPrimary cfg.cacheLevel = true := by rw [hAll]; rfl
      have hLS : levelIncludesSearch cfg.cacheLevel = true := by rw [hAll]; rfl
      by_cases hp : (tryPrimaryCache st iid q GErr.nilErr).hitted
      · have : (beforeQuery cfg iid q st).hit = true := by
          simp [beforeQuery, hsc, hLP, hp]
        rw [this] at hMiss
        cases hMiss
      · have hp' : (tryPrimaryCache st iid q GErr.nilErr).hitted = false := by simpa using hp
        have hbq := beforeQuery_searchPhase cfg iid q st hsc hLS (Or.inr hp')
        rcases trySearchCache_cases st iid q with hsh | hse
        · rw [hbq] at hMiss
          simp only at hMiss
          rw [hsh] at hMiss
          cases hMiss
        · rw [hbq] at hNoPanic ⊢
          simp only at hNoPanic ⊢
          rw [hNoPanic]
          simpa using hse
    · have hsc' : ShouldCache q.tableName cfg.tables = false := by simpa using hsc
      simp [beforeQuery, hsc']
  · intro hOP hsc
    have herr := beforeQuery_onlyPrimary_error cfg iid q st hsc hOP
    refine ⟨herr, ?_⟩
    rw [herr]
    rcases tryPrimaryCache_error_cases st iid q GErr.nilErr with h | h | h | h
    · exact Or.inl h
    · exact Or.inl h
    · exact Or.inr (Or.inl h)
    · exact Or.inr (Or.inr h)

/-- C2 amended witness: a concrete CacheLevelAll read whose primary probe
leaves the deserialization error is cleared to nil by the search probe —
the read falls through with no cache-layer error. -/
theorem C2_amended_decode_failure_policy_witness :
    (beforeQuery cfgMax1 "inst" qTwoIdsStructDest stTwoPrimaries).error = GErr.nilErr :=
  (C2_amended_decode_failure_policy cfgMax1 "inst" qTwoIdsStructDest stTwoPrimaries
      (by decide)).1 rfl (by decide)

/-- C3: with cache-penetration protection enabled, after an upstream
record-not-found on an allow-listed table the "recordNotFound" sentinel
is stored as the single write, at the search-namespace key (its shape is
the search prefix followed by the SQL and parameters), and every other
key of the store — in particular every primary-key-namespace entry — is
untouched; a subsequent identical query (whose point-lookup probe does
not hit, as in the penetration scenario where the row does not exist) is
answered from cache: BeforeQuery counts a hit with the
RecordNotFoundCacheHit marker, the upstream query is skipped, and
AfterQuery writes nothing further and delivers gorm.ErrRecordNotFound to
the caller. -/
theorem C3_penetration_sentinel_roundtrip (cfg : CacheConfig) (iid : String) (q : QueryCtx)
    (st : Store) (rows rows2 : Int) (pks objs : List String) (dest : String)
    (hProt : cfg.disableCachePenetrationProtect = false)
    (hTab : ShouldCache q.tableName cfg.tables = true)
    (hLvl : cfg.cacheLevel = CacheLevel.all)
    (hPrimMiss : (tryPrimaryCache
        (afterQuery cfg iid q st GErr.recordNotFound rows pks objs dest).store
        iid q GErr.nilErr).hitted = false) :
    (afterQuery cfg iid q st GErr.recordNotFound rows pks objs dest).writes =
      [CacheWrite.setKey (GenSearchCacheKey iid q.tableName q.sql q.vars) "recordNotFound"] ∧
    (afterQuery cfg iid q st GErr.recordNotFound rows pks objs dest).store =
      storeSetKey st (GenSearchCacheKey iid q.tableName q.sql q.vars) "recordNotFound" ∧
    GenSearchCacheKey iid q.tableName q.sql q.vars =
      GenSearchCachePrefix iid q.tableName ++ ":" ++ q.sql ++
        String.join (q.vars.map (fun v => ":" ++ v)) ∧
    (∀ k, k ≠ GenSearchCacheKey iid q.tableName q.sql q.vars →
      storeLookup (afterQuery cfg iid q st GErr.recordNotFound rows pks objs dest).store k =
        storeLookup st k) ∧
    (let st2 := (afterQuery cfg iid q st GErr.recordNotFound rows pks objs dest).store
     (beforeQuery cfg iid q st2).hit = true ∧
     (beforeQuery cfg iid q st2).error = GErr.recordNotFoundCacheHit ∧
     upstreamWillRun (beforeQuery cfg iid q st2) = false ∧
     (afterQuery cfg iid q st2 (beforeQuery cfg iid q st2).error rows2 [] [] "").writes = [] ∧
     (afterQuery cfg iid q st2 (beforeQuery cfg iid q st2).error rows2 [] [] "").store = st2 ∧
     (afterQuery cfg iid q st2 (beforeQuery cfg iid q st2).error rows2 [] [] "").error =
       GErr.recordNotFound) := by
  have haq : afterQuery cfg iid q st GErr.recordNotFound rows pks objs dest =
      { store := storeSetKey st (GenSearchCacheKey iid q.tableName q.sql q.vars)
          "recordNotFound"
        error := GErr.recordNotFound
        writes := [CacheWrite.setKey (GenSearchCacheKey iid q.tableName q.sql q.vars)
          "recordNotFound"] } := by
    simp [afterQuery, hTab, hProt, unwindCacheHitError]
  have hLS : levelIncludesSearch cfg.cacheLevel = true := by rw [hLvl]; rfl
  have hkey : GenSearchCacheKey iid q.tableName q.sql q.vars =
      GenSearchCachePrefix iid q.tableName ++ ":" ++ q.sql ++
        String.join (q.vars.map (fun v => ":" ++ v)) := by
    simp [GenSearchCacheKey, GenSearchCachePrefix, String.append_assoc]
  refine ⟨by rw [haq], by rw [haq], hkey, ?_, ?_⟩
  · intro k hk
    rw [haq]
    exact storeLookup_setKey_other st _ "recordNotFound" k hk
  · rw [haq] at hPrimMiss ⊢
    simp only
    have hsent : storeLookup
        (storeSetKey st (GenSearchCacheKey iid q.tableName q.sql q.vars) "recordNotFound")
        (GenSearchCacheKey iid q.tableName q.sql q.vars) = some "recordNotFound" :=
      storeLookup_setKey_self st _ _
    have hsearch := trySearchCache_sentinel
      (storeSetKey st (GenSearchCacheKey iid q.tableName q.sql q.vars) "recordNotFound")
      iid q hsent
    have hbq := beforeQuery_searchPhase cfg iid q
      (storeSetKey st (GenSearchCacheKey iid q.tableName q.sql q.vars) "recordNotFound")
      hTab hLS (Or.inr hPrimMiss)
    rw [hsearch] at hbq
    simp only at hbq
    rw [hbq]
    refine ⟨rfl, rfl, rfl, ?_, ?_, rfl⟩
    · simp [afterQuery, hTab, hProt]
    · simp [afterQuery, hTab, hProt]

/-- C3 witness: the concrete penetration round trip — an empty store, a
point query whose row does not exist upstream. -/
theorem C3_penetration_sentinel_roundtrip_witness :
    (afterQuery cfgMax1 "inst" qById [] GErr.recordNotFound 0 [] [] "").writes =
      [CacheWrite.setKey (GenSearchCacheKey "inst" "t" qById.sql qById.vars)
        "recordNotFound"] ∧
    (beforeQuery cfgMax1 "inst" qById
      (afterQuery cfgMax1 "inst" qById [] GErr.recordNotFound 0 [] [] "").store).hit = true ∧
    storeLookup (afterQuery cfgMax1 "inst" qById [] GErr.recordNotFound 0 [] [] "").store
      (GenPrimaryCacheKey "inst" "t" ["1"]) = none :=
  ⟨(C3_penetration_sentinel_roundtrip cfgMax1 "inst" qById [] 0 0 [] [] ""
      (by decide) (by decide) rfl (by decide)).1,
   (C3_penetration_sentinel_roundtrip cfgMax1 "inst" qById [] 0 0 [] [] ""
      (by decide) (by decide) rfl (by decide)).2.2.2.2.1,
   ((C3_penetration_sentinel_roundtrip cfgMax1 "inst" qById [] 0 0 [] [] ""
      (by decide) (by decide) rfl (by decide)).2.2.2.1
      (GenPrimaryCacheKey "inst" "t" ["1"]) (by decide)).trans (by decide)⟩

/-- Every op emitted by the unique-cache part of AfterUpdate is a
unique-namespace op. -/
theorem afterUpdateUniqueOps_shape (iid t : String) (schema : Option SchemaInfo)
    (wh : Option (List WhereExpr)) (op : InvalidateOp)
    (h : op ∈ afterUpdateUniqueOps iid t schema wh) :
    (∃ n ks, op = InvalidateOp.batchDeleteUnique n ks) ∨
    (∃ n p, op = InvalidateOp.deleteAllUnique n p) := by
  unfold afterUpdateUniqueOps at h
  by_cases hl : (getUniqueKeysFromWhereClause schema wh).length > 0
  · simp only [hl, if_true] at h
    rcases List.mem_filterMap.mp h with ⟨nk, _, hf⟩
    by_cases hk : nk.2.length > 0
    · simp only [hk, if_true, Option.some.injEq] at hf
      exact Or.inl ⟨nk.1, _, hf.symm⟩
    · simp [hk] at hf
  · simp only [hl, if_false] at h
    cases schema with
    | none => simp at h
    | some s =>
        simp only at h
        rcases List.mem_map.mp h with ⟨idx, _, heq⟩
        exact Or.inr ⟨idx.1, _, heq.symm⟩

/-- C4: after a successful update or delete that affected at least one
row, with InvalidateWhenUpdate set and the table allow-listed: when the
level includes primary lookups, the primary keys extracted from the WHERE
clause are batch-deleted exactly when extraction yields at least one key
(no full-table primary sweep is issued then), and otherwise the table's
whole primary namespace is prefix-deleted (and no batch delete is
issued); when the level includes search lookups, the table's search
namespace is unconditionally prefix-deleted. Both for the AfterUpdate
and the AfterDelete hook. -/
theorem C4_update_delete_invalidation (cfg : CacheConfig) (iid t : String)
    (schema : Option SchemaInfo) (wh : Option (List WhereExpr)) (rows : Int) (err : GErr)
    (hRows : 1 ≤ rows) (hErr : err = GErr.nilErr)
    (hInv : cfg.invalidateWhenUpdate = true)
    (hTab : ShouldCache t cfg.tables = true) :
    (levelIncludesSearch cfg.cacheLevel = true →
      InvalidateOp.deleteAllSearch (GenSearchCachePrefix iid t) ∈
        afterUpdateOps cfg iid t schema wh rows err ∧
      InvalidateOp.deleteAllSearch (GenSearchCachePrefix iid t) ∈
        afterDeleteOps cfg iid t schema wh rows err) ∧
    (levelIncludesPrimary cfg.cacheLevel = true →
      getPrimaryKeysFromWhereClause schema wh ≠ [] →
      (InvalidateOp.batchDeletePrimary
          ((getPrimaryKeysFromWhereClause schema wh).map
            (fun pk => GenPrimaryCacheKey iid t [pk])) ∈
        afterUpdateOps cfg iid t schema wh rows err ∧
       InvalidateOp.batchDeletePrimary
          ((getPrimaryKeysFromWhereClause schema wh).map
            (fun pk => GenPrimaryCacheKey iid t [pk])) ∈
        afterDeleteOps cfg iid t schema wh rows err ∧
       (∀ p, InvalidateOp.deleteAllPrimary p ∉ afterUpdateOps cfg iid t schema wh rows err) ∧
       (∀ p, InvalidateOp.deleteAllPrimary p ∉ afterDeleteOps cfg iid t schema wh rows err))) ∧
    (levelIncludesPrimary cfg.cacheLevel = true →
      getPrimaryKeysFromWhereClause schema wh = [] →
      (InvalidateOp.deleteAllPrimary (GenPrimaryCachePrefix iid t) ∈
        afterUpdateOps cfg iid t schema wh rows err ∧
       InvalidateOp.deleteAllPrimary (GenPrimaryCachePrefix iid t) ∈
        afterDeleteOps cfg iid t schema wh rows err ∧
       (∀ ks, InvalidateOp.batchDeletePrimary ks ∉ afterUpdateOps cfg iid t schema wh rows err) ∧
       (∀ ks, InvalidateOp.batchDeletePrimary ks ∉
          afterDeleteOps cfg iid t schema wh rows err))) := by
  have hr : (rows == 0) = false := by
    have : rows ≠ 0 := by omega
    simpa using this
  have hu : afterUpdateOps cfg iid t schema wh rows err =
      (if levelIncludesPrimary cfg.cacheLevel then
        (if (getPrimaryKeysFromWhereClause schema wh).length > 0 then
          [InvalidateOp.batchDeletePrimary
            ((getPrimaryKeysFromWhereClause schema wh).map
              (fun pk => GenPrimaryCacheKey iid t [pk]))]
        else [InvalidateOp.deleteAllPrimary (GenPrimaryCachePrefix iid t)]) ++
        afterUpdateUniqueOps iid t schema wh
      else []) ++
      (if levelIncludesSearch cfg.cacheLevel then
        [InvalidateOp.deleteAllSearch (GenSearchCachePrefix iid t)]
      else []) := by
    simp [afterUpdateOps, hr, hErr, hInv, hTab]
  have hd : afterDeleteOps cfg iid t schema wh rows err =
      (if levelIncludesPrimary cfg.cacheLevel then
        (if (getPrimaryKeysFromWhereClause schema wh).length > 0 then
          [InvalidateOp.batchDeletePrimary
            ((getPrimaryKeysFromWhereClause schema wh).map
              (fun pk => GenPrimaryCacheKey iid t [pk]))]
        else [InvalidateOp.deleteAllPrimary (GenPrimaryCachePrefix iid t)])
      else []) ++
      (if levelIncludesSearch cfg.cacheLevel then
        [InvalidateOp.deleteAllSearch (GenSearchCachePrefix iid t)]
      else []) := by
    simp [afterDeleteOps, hr, hErr, hInv, hTab]
  refine ⟨?_, ?_, ?_⟩
  · intro hLS
    rw [hu, hd]
    simp [hLS]
  · intro hLP hne
    have hlen : (getPrimaryKeysFromWhereClause schema wh).length > 0 :=
      List.length_pos.mpr hne
    rw [hu, hd]
    refine ⟨by simp [hLP, hlen], by simp [hLP, hlen], ?_, ?_⟩
    · intro p hp
      simp only [hLP, if_true, hlen, List.append_assoc, List.mem_append,
        List.mem_singleton] at hp
      rcases hp with hp | hp | hp
      · cases hp
      · rcases afterUpdateUniqueOps_shape iid t schema wh _ hp with ⟨n, ks, he⟩ | ⟨n, pr, he⟩ <;>
          cases he
      · by_cases hLS : levelIncludesSearch cfg.cacheLevel <;> simp [hLS] at hp
    · intro p hp
      simp only [hLP, if_true, hlen, List.mem_append, List.mem_singleton] at hp
      rcases hp with hp | hp
      · cases hp
      · by_cases hLS : levelIncludesSearch cfg.cacheLevel <;> simp [hLS] at hp
  · intro hLP he
    have hlen : ¬((getPrimaryKeysFromWhereClause schema wh).length > 0) := by
      simp [he]
    rw [hu, hd]
    refine ⟨by simp [hLP, hlen], by simp [hLP, hlen], ?_, ?_⟩
    · intro ks hp
      simp only [hLP, if_true, hlen, if_false, List.append_assoc, List.mem_append,
        List.mem_singleton] at hp
      rcases hp with hp | hp | hp
      · cases hp
      · rcases afterUpdateUniqueOps_shape iid t schema wh _ hp with ⟨n, ks2, h2⟩ | ⟨n, pr, h2⟩ <;>
          cases h2
      · by_cases hLS : levelIncludesSearch cfg.cacheLevel <;> simp [hLS] at hp
    · intro ks hp
      simp only [hLP, if_true, hlen, if_false, List.mem_append, List.mem_singleton] at hp
      rcases hp with hp | hp
      · cases hp
      · by_cases hLS : levelIncludesSearch cfg.cacheLevel <;> simp [hLS] at hp

/-- C4 witness: a concrete by-key delete batch-deletes exactly the
extracted key and sweeps the search namespace. -/
theorem C4_update_delete_invalidation_witness :
    InvalidateOp.deleteAllSearch (GenSearchCachePrefix "inst" "t") ∈
      afterUpdateOps cfgMax1 "inst" "t" (some ⟨["id"], []⟩)
        (some [WhereExpr.eq "id" "1"]) 1 GErr.nilErr ∧
    InvalidateOp.batchDeletePrimary [GenPrimaryCacheKey "inst" "t" ["1"]] ∈
      afterDeleteOps cfgMax1 "inst" "t" (some ⟨["id"], []⟩)
        (some [WhereExpr.eq "id" "1"]) 1 GErr.nilErr :=
  ⟨((C4_update_delete_invalidation cfgMax1 "inst" "t" (some ⟨["id"], []⟩)
      (some [WhereExpr.eq "id" "1"]) 1 GErr.nilErr (by decide) rfl (by decide)
      (by decide)).1 (by decide)).1,
   (((C4_update_delete_invalidation cfgMax1 "inst" "t" (some ⟨["id"], []⟩)
      (some [WhereExpr.eq "id" "1"]) 1 GErr.nilErr (by decide) rfl (by decide)
      (by decide)).2.1 (by decide) (by decide)).2.1)⟩

/-- C5 counterexample: the spec extends the point-lookup probe to a full
unique-index column set, but the read path has none. Concretely: the
WHERE clause is a single equality covering the whole column set of the
unique index idx_name (the spec-side predicate holds), the store holds
exactly the matching unique-namespace entry, yet BeforeQuery reads no
key of the unique namespace and counts a miss. -/
theorem C5_counterexample_no_unique_probe :
    specUniqueProbeApplies qByUniqueName.schema qByUniqueName.whereExprs = true ∧
    storeLookup stUniqueEntry (GenUniqueCacheKey "inst" "t" "idx_name" ["bob"]) =
      some "payload" ∧
    (beforeQuery cfgMax1 "inst" qByUniqueName stUniqueEntry).hit = false ∧
    (beforeQuery cfgMax1 "inst" qByUniqueName stUniqueEntry).readKeys.all
      (fun k => !(goHasPrefix k (GenUniqueCachePrefix "inst" "t" "idx_name"))) = true := by
  decide

/-- C5 amended: the point-lookup probe concerns only the primary-key
column set. (1) The probe fetches cache entries only when the extraction
produced at least one full primary-key tuple and the WHERE clause holds
nothing but eq/IN constraints on primary-key columns; (2) a non-empty
extraction requires every primary-key column to be constrained; (3) a
hit requires the batch fetch to return exactly as many values as
requested keys; (4) every key BeforeQuery reads is a primary-namespace
key of an extracted tuple or the search key — never a unique-namespace
key. -/
theorem C5_amended_primary_probe_only (cfg : CacheConfig) (iid : String) (q : QueryCtx)
    (st : Store) (errIn : GErr) :
    ((tryPrimaryCache st iid q errIn).readKeys ≠ [] →
      getPrimaryKeysFromWhereClause q.schema q.whereExprs ≠ [] ∧
      hasOtherClauseExceptPrimaryField q.schema q.whereExprs = false) ∧
    (∀ s exprs, q.schema = some s → q.whereExprs = some exprs →
      getPrimaryKeysFromWhereClause q.schema q.whereExprs ≠ [] →
      ∀ f ∈ s.primaryFields, (mapGet (collectFieldValues exprs) f).isEmpty = false) ∧
    ((tryPrimaryCache st iid q errIn).hitted = true →
      ∃ values,
        storeBatchGetValues st
          ((getPrimaryKeysFromWhereClause q.schema q.whereExprs).map
            (fun pk => GenPrimaryCacheKey iid q.tableName [pk])) = some values ∧
        values.length = (getPrimaryKeysFromWhereClause q.schema q.whereExprs).length) ∧
    (∀ k ∈ (beforeQuery cfg iid q st).readKeys,
      k ∈ (getPrimaryKeysFromWhereClause q.schema q.whereExprs).map
          (fun pk => GenPrimaryCacheKey iid q.tableName [pk]) ∨
      k = GenSearchCacheKey iid q.tableName q.sql q.vars) := by
  refine ⟨?_, ?_, tryPrimaryCache_hit_counts st iid q errIn, ?_⟩
  · intro hne
    rcases tryPrimaryCache_readKeys_cases st iid q errIn with h | ⟨_, h2, h3⟩
    · exact absurd h hne
    · exact ⟨h2, h3⟩
  · intro s exprs hs hw hne f hf
    rw [hs, hw] at hne
    exact getPrimaryKeys_nonEmpty_full_set s exprs hne f hf
  · have hmemP : ∀ k ∈ (tryPrimaryCache st iid q GErr.nilErr).readKeys,
        k ∈ (getPrimaryKeysFromWhereClause q.schema q.whereExprs).map
          (fun pk => GenPrimaryCacheKey iid q.tableName [pk]) := by
      intro k hk
      rcases tryPrimaryCache_readKeys_cases st iid q GErr.nilErr with h | ⟨h1, _, _⟩
      · rw [h] at hk
        cases hk
      · rw [h1] at hk
        exact hk
    intro k hk
    by_cases hsc : ShouldCache q.tableName cfg.tables
    · by_cases hLP : levelIncludesPrimary cfg.cacheLevel
      · by_cases hp : (tryPrimaryCache st iid q GErr.nilErr).hitted
        · have hrk : (beforeQuery cfg iid q st).readKeys =
              (tryPrimaryCache st iid q GErr.nilErr).readKeys := by
            simp [beforeQuery, hsc, hLP, hp]
          rw [hrk] at hk
          exact Or.inl (hmemP k hk)
        · have hp' : (tryPrimaryCache st iid q GErr.nilErr).hitted = false := by
            simpa using hp
          by_cases hLS : levelIncludesSearch cfg.cacheLevel
          · have hbq := beforeQuery_searchPhase cfg iid q st hsc hLS (Or.inr hp')
            rw [hbq] at hk
            simp [hLP, trySearchCache_readKeys] at hk
            rcases hk with hk | hk
            · exact Or.inl (hmemP k hk)
            · exact Or.inr hk
          · have hLS' : levelIncludesSearch cfg.cacheLevel = false := by simpa using hLS
            have hrk : (beforeQuery cfg iid q st).readKeys =
                (tryPrimaryCache st iid q GErr.nilErr).readKeys := by
              simp [beforeQuery, hsc, hLP, hp', hLS']
            rw [hrk] at hk
            exact Or.inl (hmemP k hk)
      · have hLP' : levelIncludesPrimary cfg.cacheLevel = false := by simpa using hLP
        by_cases hLS : levelIncludesSearch cfg.cacheLevel
        · have hbq := beforeQuery_searchPhase cfg iid q st hsc hLS (Or.inl hLP')
          rw [hbq] at hk
          simp [hLP', trySearchCache_readKeys] at hk
          exact Or.inr hk
        · have hLS' : levelIncludesSearch cfg.cacheLevel = false := by simpa using hLS
          have hrk : (beforeQuery cfg iid q st).readKeys = [] := by
            simp [beforeQuery, hsc, hLP', hLS']
          rw [hrk] at hk
          cases hk
    · have hsc' : ShouldCache q.tableName cfg.tables = false := by simpa using hsc
      have hrk : (beforeQuery cfg iid q st).readKeys = [] := by
        simp [beforeQuery, hsc']
      rw [hrk] at hk
      cases hk

/-- C5 amended witness: the by-primary-key read fetches exactly the one
primary-namespace key. -/
theorem C5_amended_primary_probe_only_witness :
    (tryPrimaryCache stTwoPrimaries "inst" qById GErr.nilErr).readKeys ≠ [] →
      getPrimaryKeysFromWhereClause qById.schema qById.whereExprs ≠ [] ∧
      hasOtherClauseExceptPrimaryField qById.schema qById.whereExprs = false :=
  (C5_amended_primary_probe_only cfgMax1 "inst" qById stTwoPrimaries GErr.nilErr).1

end GormCache
